import Mathlib

set_option maxRecDepth 40000

/-!
Verification of the terminal-mapping read parser (`parser.py`).

The program scans sequencing reads for an adapter anchor, recursively walks the
read on every anchor occurrence, selects the last viral-motif occurrence in the
text upstream of the anchor, finds a poly-A run downstream of that motif, and
emits the intervening segment as a numbered FASTA-like record.

Strings are embedded as `List Char`.  The approximate string matcher (the
external `seeq` collaborator) is embedded through its contract: a `Matcher`
holds a pattern and a mismatch budget; `matchAll` enumerates every qualifying
occurrence left to right (the empty list standing for `seeq`'s `None`),
`matchFirst` returns the earliest one.  A qualifying occurrence at offset `i`
is a window of the text of the pattern's length whose Hamming distance to the
pattern is within the budget.  `process` embeds `parser.process`, threading the
global counter `LINENO` explicitly and returning the list of emitted records
(identifier, segment) in emission order together with the final counter value.
-/

namespace TerminalMapping

/-- A precompiled approximate matcher, as built by `seeq.compile(pattern, k)`:
a pattern together with the maximum number of mismatches allowed. -/
structure Matcher where
  pattern : List Char
  maxMismatch : Nat
deriving DecidableEq

/-- Number of positions at which two character lists differ (compared
position-wise up to the shorter length). -/
def countMismatch : List Char → List Char → Nat
  | [], _ => 0
  | _, [] => 0
  | a :: as, b :: bs => (if a = b then 0 else 1) + countMismatch as bs

/-- The pattern occurs at offset `i` of `text`: the window of the pattern's
length starting at `i` fits inside `text` and differs from the pattern in at
most `maxMismatch` positions. -/
def Matcher.matchesAt (m : Matcher) (text : List Char) (i : Nat) : Bool :=
  decide (i + m.pattern.length ≤ text.length) &&
    decide (countMismatch m.pattern ((text.drop i).take m.pattern.length) ≤ m.maxMismatch)

/-- All qualifying occurrences `(start, end)` of the pattern in `text`,
in ascending order of position — `seeq`'s `matchAll(text).matchlist`, with the
empty list standing for the `None` result. -/
def Matcher.matchAll (m : Matcher) (text : List Char) : List (Nat × Nat) :=
  ((List.range (text.length + 1 - m.pattern.length)).filter
    (fun i => m.matchesAt text i)).map (fun i => (i, i + m.pattern.length))

/-- The earliest qualifying occurrence of the pattern in `text`, if any —
`seeq`'s `match(text)`. -/
def Matcher.matchFirst (m : Matcher) (text : List Char) : Option (Nat × Nat) :=
  (m.matchAll text).head?

/-- Pattern of the HIV viral-motif matcher. -/
def HIV_pattern : String := "CTTGTCTTCGTTGGGAGTGAATTAGCCCTTCCA"

/-- Pattern of the SIV viral-motif matcher. -/
def SIV_pattern : String := "TCTATGTCTTCTTGCACTGTAATAAATCCCTTCCA"

/-- Pattern of the adapter-anchor matcher. -/
def S2_pattern : String := "AAAAAAAGATCGGAAGAGCACACGTCTGAACTCCAGTCAC"

/-- Pattern of the poly-A matcher. -/
def A_pattern : String := "AAAAAAAAAAAAAAAAAAAA"

/-- Embedding of `HIV_matcher = seeq.compile("CTTGTCTTCGTTGGGAGTGAATTAGCCCTTCCA", 5)`. -/
def HIV_matcher : Matcher := ⟨HIV_pattern.data, 5⟩

/-- Embedding of `SIV_matcher = seeq.compile("TCTATGTCTTCTTGCACTGTAATAAATCCCTTCCA", 5)`. -/
def SIV_matcher : Matcher := ⟨SIV_pattern.data, 5⟩

/-- Embedding of `S2_matcher = seeq.compile("AAAAAAAGATCGGAAGAGCACACGTCTGAACTCCAGTCAC", 6)`. -/
def S2_matcher : Matcher := ⟨S2_pattern.data, 6⟩

/-- Embedding of `A_matcher = seeq.compile("AAAAAAAAAAAAAAAAAAAA", 3)`. -/
def A_matcher : Matcher := ⟨A_pattern.data, 3⟩

/-- The complement map used by `reverse_complement`:
`{"A": "T", "T": "A", "C": "G", "G": "C"}` with default `"N"`. -/
def complement_dict (c : Char) : Char :=
  if c = 'A' then 'T'
  else if c = 'T' then 'A'
  else if c = 'C' then 'G'
  else if c = 'G' then 'C'
  else 'N'

/-- Embedding of `reverse_complement(seq)`: complement of every symbol of the reversed
sequence, unrecognized symbols mapped to `'N'`. -/
def reverse_complement (seq : List Char) : List Char :=
  (seq.reverse).map complement_dict

/-- A character of the nucleotide alphabet handled by `complement_dict`. -/
def isACGT (c : Char) : Bool :=
  c = 'A' || c = 'C' || c = 'G' || c = 'T'

/-- A first occurrence reported by `matchFirst` spans `pattern.length`
characters and lies inside the text. -/
theorem Matcher.matchFirst_bounds {m : Matcher} {text : List Char} {s e : Nat}
    (h : m.matchFirst text = some (s, e)) :
    e = s + m.pattern.length ∧ s + m.pattern.length ≤ text.length := by
  unfold Matcher.matchFirst at h
  have hmem : (s, e) ∈ m.matchAll text := by
    rcases List.head?_eq_some_iff.mp h with ⟨ys, hys⟩
    rw [hys]
    exact List.mem_cons_self _ _
  unfold Matcher.matchAll at hmem
  rcases List.mem_map.mp hmem with ⟨i, hi, hpair⟩
  rcases List.mem_filter.mp hi with ⟨hrange, _⟩
  have hlt := List.mem_range.mp hrange
  cases hpair
  omega

/-- The function `matchFirst` is the head of the ordered occurrence list. -/
theorem Matcher.matchFirst_eq (m : Matcher) (text : List Char) :
    m.matchFirst text = (m.matchAll text).head? := rfl

/-- An empty occurrence list means `matchFirst` reports nothing. -/
theorem Matcher.matchFirst_of_matchAll_nil {m : Matcher} {text : List Char}
    (h : m.matchAll text = []) : m.matchFirst text = none := by
  rw [Matcher.matchFirst_eq, h]
  rfl

/-- A non-empty pattern has no occurrence in the empty text. -/
theorem Matcher.matchFirst_nil {m : Matcher} (hpos : 0 < m.pattern.length) :
    m.matchFirst ([] : List Char) = none := by
  rw [Matcher.matchFirst_eq]
  unfold Matcher.matchAll
  have : ([] : List Char).length + 1 - m.pattern.length = 0 := by
    simp only [List.length_nil]
    omega
  rw [this]
  rfl

/-- The adapter-anchor pattern spans 40 symbols. -/
theorem S2_pattern_length : S2_matcher.pattern.length = 40 := by decide

/-- The part of `parser.process` that runs after the recursive call on the
anchor's suffix: in the prefix `pre` upstream of the anchor, pick the end
offset of the last viral-motif occurrence (`vir.matchlist[-1][1]`), find a
poly-A run from there (`A_matcher.match(prefix[vir_pos:])` — the poly-A
matcher is the `polyA` argument), and when the intervening segment is
non-empty append it as a record numbered with the current counter.  `r` is
the records/counter pair produced so far (by the recursion on the suffix). -/
def processPre (polyA viral : Matcher) (pre : List Char)
    (r : List (Nat × List Char) × Nat) : List (Nat × List Char) × Nat :=
  match (viral.matchAll pre).getLast? with
  | none => r
  | some (_, virPos) =>
    match polyA.matchFirst (pre.drop virPos) with
    | none => r
    | some (a0, _) =>
      let aPos := a0 + virPos
      if virPos < aPos then
        (r.1 ++ [(r.2, (pre.drop virPos).take (aPos - virPos))], r.2 + 1)
      else r

/-- Embedding of `parser.process`, parameterized by the adapter-anchor matcher (`anchor`)
and the poly-A matcher (`polyA`), with the recursion depth bounded by an
explicit `fuel` argument so that the recursion is structural.  Every anchor
occurrence consumes at least the anchor pattern's symbols, so for a non-empty
anchor pattern any `fuel ≥ text.length` gives the untruncated result
(`processFuel_congr`); `process` below ties the knot with the program's
concrete matchers and `fuel := text.length`. -/
def processFuel (anchor polyA viral : Matcher) : Nat → List Char → Nat →
    List (Nat × List Char) × Nat
  | 0, _, lineno => ([], lineno)
  | fuel + 1, text, lineno =>
    match anchor.matchFirst text with
    | none => ([], lineno)
    | some (s, e) =>
      processPre polyA viral (text.take s)
        (processFuel anchor polyA viral fuel (text.drop e) lineno)

/-- Embedding of `parser.process`.  Finds the adapter anchor (`S2_matcher`),
splits the text, recurses on the suffix, then handles the upstream part with
`processPre` (poly-A matcher `A_matcher`).  The `LINENO` global is threaded
as the `lineno` argument; the result is the list of `(identifier, segment)`
records in emission order together with the final counter value. -/
def process (viral : Matcher) (text : List Char) (lineno : Nat) :
    List (Nat × List Char) × Nat :=
  processFuel S2_matcher A_matcher viral text.length text lineno

/-- An anchor occurrence consumes the anchor pattern's symbols, so when the
anchor pattern is non-empty any two fuels at least the text's length compute
the same result. -/
theorem processFuel_congr (anchor polyA viral : Matcher)
    (hpos : 0 < anchor.pattern.length) :
    ∀ (fuel fuel' : Nat) (text : List Char) (n : Nat),
      text.length ≤ fuel → text.length ≤ fuel' →
      processFuel anchor polyA viral fuel text n =
        processFuel anchor polyA viral fuel' text n := by
  intro fuel
  induction fuel using Nat.strong_induction_on with
  | _ fuel ih =>
    intro fuel' text n h h'
    match fuel, fuel' with
    | 0, 0 => rfl
    | 0, f' + 1 =>
      have hnil : text = [] := List.length_eq_zero.mp (Nat.le_zero.mp h)
      subst hnil
      simp only [processFuel]
      rw [Matcher.matchFirst_nil hpos]
    | f + 1, 0 =>
      have hnil : text = [] := List.length_eq_zero.mp (Nat.le_zero.mp h')
      subst hnil
      simp only [processFuel]
      rw [Matcher.matchFirst_nil hpos]
    | f + 1, f' + 1 =>
      simp only [processFuel]
      cases hm : anchor.matchFirst text with
      | none => rfl
      | some se =>
        obtain ⟨s, e⟩ := se
        obtain ⟨he, hle⟩ := Matcher.matchFirst_bounds hm
        simp only
        congr 1
        have hd : (text.drop e).length = text.length - e := List.length_drop e text
        exact ih f (by omega) f' (text.drop e) n (by omega) (by omega)

/-- Unfolding of `process` when no adapter anchor is found: the base case of
the recursion, no record emitted, the counter untouched. -/
theorem process_anchor_none (viral : Matcher) (text : List Char) (n : Nat)
    (h : S2_matcher.matchFirst text = none) : process viral text n = ([], n) := by
  unfold process
  cases hL : text.length with
  | zero => rfl
  | succ k =>
    simp only [processFuel]
    rw [h]

/-- Unfolding of `process` when the adapter anchor is found at `(s, e)`: the
suffix `text[e:]` is processed first, then the upstream part `text[:s]`. -/
theorem process_anchor_some (viral : Matcher) (text : List Char) (n s e : Nat)
    (h : S2_matcher.matchFirst text = some (s, e)) :
    process viral text n =
      processPre A_matcher viral (text.take s) (process viral (text.drop e) n) := by
  obtain ⟨he, hle⟩ := Matcher.matchFirst_bounds h
  have h40 := S2_pattern_length
  unfold process
  cases hL : text.length with
  | zero => omega
  | succ k =>
    simp only [processFuel]
    rw [h]
    simp only
    congr 1
    have hd : (text.drop e).length = text.length - e := List.length_drop e text
    exact processFuel_congr S2_matcher A_matcher viral (by omega) k
      (text.drop e).length (text.drop e) n (by omega) (le_refl _)

/-- Behaviour of `processPre` when the upstream part holds no viral-motif occurrence
(`vir is None`): nothing is emitted for this anchor. -/
theorem processPre_noVir (polyA viral : Matcher) (pre : List Char)
    (r : List (Nat × List Char) × Nat)
    (h : (viral.matchAll pre).getLast? = none) :
    processPre polyA viral pre r = r := by
  simp only [processPre, h]

/-- Behaviour of `processPre` when no poly-A run is found downstream of the selected
viral-motif end: nothing is emitted for this anchor. -/
theorem processPre_noA (polyA viral : Matcher) (pre : List Char)
    (r : List (Nat × List Char) × Nat) (vs vp : Nat)
    (h2 : (viral.matchAll pre).getLast? = some (vs, vp))
    (h3 : polyA.matchFirst (pre.drop vp) = none) :
    processPre polyA viral pre r = r := by
  simp only [processPre, h2, h3]

/-- Behaviour of `processPre` when the poly-A run starts strictly after the selected
viral-motif end: the segment between the two is appended as a record carrying
the current counter, and the counter advances by one. -/
theorem processPre_emit (polyA viral : Matcher) (pre : List Char)
    (r : List (Nat × List Char) × Nat) (vs vp a0 ae : Nat)
    (h2 : (viral.matchAll pre).getLast? = some (vs, vp))
    (h3 : polyA.matchFirst (pre.drop vp) = some (a0, ae))
    (ha : 0 < a0) :
    processPre polyA viral pre r =
      (r.1 ++ [(r.2, (pre.drop vp).take a0)], r.2 + 1) := by
  simp only [processPre, h2, h3]
  rw [if_pos (by omega)]
  rw [Nat.add_sub_cancel]

/-- Behaviour of `processPre` when the poly-A run starts exactly at the selected
viral-motif end (relative offset `0`): the degenerate empty segment is
rejected and nothing is emitted for this anchor. -/
theorem processPre_degen (polyA viral : Matcher) (pre : List Char)
    (r : List (Nat × List Char) × Nat) (vs vp ae : Nat)
    (h2 : (viral.matchAll pre).getLast? = some (vs, vp))
    (h3 : polyA.matchFirst (pre.drop vp) = some (0, ae)) :
    processPre polyA viral pre r = r := by
  simp only [processPre, h2, h3]
  rw [if_neg (by omega)]

/-- Preservation: `processPre` preserves the counter invariant: the counter equals the base
value plus the number of records, and the record identifiers are the
consecutive integers from the base value. -/
theorem processPre_counter (polyA viral : Matcher) (pre : List Char)
    (r : List (Nat × List Char) × Nat) (n : Nat)
    (hc : r.2 = n + r.1.length)
    (hmap : r.1.map Prod.fst = List.range' n r.1.length) :
    (processPre polyA viral pre r).2 = n + (processPre polyA viral pre r).1.length ∧
      (processPre polyA viral pre r).1.map Prod.fst =
        List.range' n (processPre polyA viral pre r).1.length := by
  cases hv : (viral.matchAll pre).getLast? with
  | none =>
    rw [processPre_noVir polyA viral pre r hv]
    exact ⟨hc, hmap⟩
  | some p =>
    obtain ⟨vs, vp⟩ := p
    cases hA : polyA.matchFirst (pre.drop vp) with
    | none =>
      rw [processPre_noA polyA viral pre r vs vp hv hA]
      exact ⟨hc, hmap⟩
    | some q =>
      obtain ⟨a0, ae⟩ := q
      rcases Nat.eq_zero_or_pos a0 with hz | hpos
      · subst hz
        rw [processPre_degen polyA viral pre r vs vp ae hv hA]
        exact ⟨hc, hmap⟩
      · rw [processPre_emit polyA viral pre r vs vp a0 ae hv hA hpos]
        constructor
        · simp only [List.length_append, List.length_cons, List.length_nil]
          omega
        · simp only [List.map_append, List.map_cons, List.map_nil,
            List.length_append, List.length_cons, List.length_nil, hmap, hc]
          rw [List.range'_concat]
          simp

/-- The `processFuel` counter invariant: starting from counter `n`, the final
counter is `n` plus the number of emitted records, and the identifiers are
the consecutive integers `n, n+1, ...`. -/
theorem processFuel_counter (anchor polyA viral : Matcher) :
    ∀ (fuel : Nat) (text : List Char) (n : Nat),
      (processFuel anchor polyA viral fuel text n).2 =
          n + (processFuel anchor polyA viral fuel text n).1.length ∧
        (processFuel anchor polyA viral fuel text n).1.map Prod.fst =
          List.range' n (processFuel anchor polyA viral fuel text n).1.length := by
  intro fuel
  induction fuel with
  | zero => intro text n; exact ⟨rfl, rfl⟩
  | succ f ih =>
    intro text n
    simp only [processFuel]
    cases hm : anchor.matchFirst text with
    | none => exact ⟨rfl, rfl⟩
    | some se =>
      obtain ⟨s, e⟩ := se
      simp only
      obtain ⟨hc, hmap⟩ := ih (text.drop e) n
      exact processPre_counter polyA viral (text.take s) _ n hc hmap

/-- The `process` counter invariant, instantiated from `processFuel_counter`. -/
theorem process_counter (viral : Matcher) (text : List Char) (n : Nat) :
    (process viral text n).2 = n + (process viral text n).1.length ∧
      (process viral text n).1.map Prod.fst =
        List.range' n (process viral text n).1.length :=
  processFuel_counter S2_matcher A_matcher viral text.length text n

/-- The per-read loop of `parser.main`: for each read, `process` the sequence
and then its reverse complement, threading the `LINENO` counter through. -/
def runReads (viral : Matcher) : List (List Char) → Nat →
    List (Nat × List Char) × Nat
  | [], lineno => ([], lineno)
  | seq :: rest, lineno =>
    let r1 := process viral seq lineno
    let r2 := process viral (reverse_complement seq) r1.2
    let rr := runReads viral rest r2.2
    (r1.1 ++ (r2.1 ++ rr.1), rr.2)

/-- A whole run of `parser.main`: the reads of all input files are processed
in order, with the counter starting at `1` (the initial value of `LINENO`)
and never reset between files. -/
def runFiles (viral : Matcher) (files : List (List (List Char))) :
    List (Nat × List Char) × Nat :=
  runReads viral files.flatten 1

/-- The `runReads` counter invariant: identifiers are consecutive from the base
counter value, which advances by exactly one per record. -/
theorem runReads_counter (viral : Matcher) :
    ∀ (reads : List (List Char)) (n : Nat),
      (runReads viral reads n).2 = n + (runReads viral reads n).1.length ∧
        (runReads viral reads n).1.map Prod.fst =
          List.range' n (runReads viral reads n).1.length := by
  intro reads
  induction reads with
  | nil => intro n; exact ⟨rfl, rfl⟩
  | cons seq rest ih =>
    intro n
    simp only [runReads]
    obtain ⟨hc1, hm1⟩ := process_counter viral seq n
    obtain ⟨hc2, hm2⟩ :=
      process_counter viral (reverse_complement seq) (process viral seq n).2
    obtain ⟨hc3, hm3⟩ := ih (process viral (reverse_complement seq)
      (process viral seq n).2).2
    rw [hc1] at hc2 hm2 hc3 hm3
    rw [hc2] at hc3 hm3
    constructor
    · simp only [List.length_append, hc1, hc2]
      omega
    · simp only [List.map_append, List.length_append, hc1, hc2]
      rw [hm1, hm2, hm3]
      rw [List.range'_append_1, List.range'_append_1]
      congr 1
      omega

/-- The `--virus` option value selecting the HIV motif (also the `argparse`
default). -/
def HIV_name : String := "HIV"

/-- The `--virus` option value selecting the SIV motif. -/
def SIV_name : String := "SIV"

/-- The viral-matcher selection of `parser.main`: `args.virus` defaults to
`"HIV"` when the option is not supplied (`none`), and
`viral_matcher = HIV_matcher if args.virus == "HIV" else SIV_matcher`. -/
def selectViralMatcher (virusArg : Option String) : Matcher :=
  if virusArg.getD HIV_name = HIV_name then HIV_matcher else SIV_matcher

/-- Helper for `complement_dict` and `isACGT`: an unhandled symbol maps to
the placeholder `'N'`. -/
theorem complement_dict_nonACGT (c : Char) (h : isACGT c = false) :
    complement_dict c = 'N' := by
  simp only [isACGT, Bool.or_eq_false_iff, decide_eq_false_iff_not] at h
  obtain ⟨⟨⟨hA, hC⟩, hG⟩, hT⟩ := h
  simp [complement_dict, hA, hC, hG, hT]

/-- The map `complement_dict` composed with itself is the identity on A, C, G, T. -/
theorem complement_dict_involutive (c : Char) (h : isACGT c = true) :
    complement_dict (complement_dict c) = c := by
  simp only [isACGT, Bool.or_eq_true, decide_eq_true_eq] at h
  rcases h with ((h | h) | h) | h <;> subst h <;> rfl

/-- Modelled from the spec: the repository's barcode-gated variant script
(variant B) is not under `src/`; per the spec it is identical to
`parser.process` except that, before emitting, it additionally requires the
6 symbols of the original anchor-bearing text immediately following the
anchor's end offset to equal this fixed 6-symbol barcode string exactly
(exact-string comparison, not fuzzy), and it includes the tag in the record
header after the identifier and a `-`. -/
def BARCODE : List Char := ("AGCAAT").data

/-- Modelled from the spec: the header line of the barcode-gated variant,
the identifier followed by `-` and the tag, e.g. `>1-AGCAAT`. -/
def mkHeaderB (id : Nat) (tag : List Char) : String :=
  ">" ++ toString id ++ "-" ++ String.mk tag

/-- Modelled from the spec: the upstream handling of the barcode-gated
variant.  Identical to `processPre` except that emission additionally
requires `bc = BARCODE`, where `bc` is the 6 symbols of the original text
immediately following the anchor's end offset, and the emitted record's
header carries the tag. -/
def processBPre (polyA viral : Matcher) (pre bc : List Char)
    (r : List (String × List Char) × Nat) : List (String × List Char) × Nat :=
  match (viral.matchAll pre).getLast? with
  | none => r
  | some (_, virPos) =>
    match polyA.matchFirst (pre.drop virPos) with
    | none => r
    | some (a0, _) =>
      let aPos := a0 + virPos
      if virPos < aPos ∧ bc = BARCODE then
        (r.1 ++ [(mkHeaderB r.2 BARCODE, (pre.drop virPos).take (aPos - virPos))],
         r.2 + 1)
      else r

/-- Modelled from the spec: the recursion of the barcode-gated variant,
fuel-bounded like `processFuel`.  The recursive descent into the suffix
occurs regardless of the barcode comparison, which gates only the emission. -/
def processBFuel (anchor polyA viral : Matcher) : Nat → List Char → Nat →
    List (String × List Char) × Nat
  | 0, _, lineno => ([], lineno)
  | fuel + 1, text, lineno =>
    match anchor.matchFirst text with
    | none => ([], lineno)
    | some (s, e) =>
      processBPre polyA viral (text.take s) ((text.drop e).take 6)
        (processBFuel anchor polyA viral fuel (text.drop e) lineno)

/-- Modelled from the spec: the barcode-gated variant's `process`, tied to
the program's concrete matchers. -/
def processB (viral : Matcher) (text : List Char) (lineno : Nat) :
    List (String × List Char) × Nat :=
  processBFuel S2_matcher A_matcher viral text.length text lineno

/-- Fuel congruence for the barcode-gated variant, as for `processFuel`. -/
theorem processBFuel_congr (anchor polyA viral : Matcher)
    (hpos : 0 < anchor.pattern.length) :
    ∀ (fuel fuel' : Nat) (text : List Char) (n : Nat),
      text.length ≤ fuel → text.length ≤ fuel' →
      processBFuel anchor polyA viral fuel text n =
        processBFuel anchor polyA viral fuel' text n := by
  intro fuel
  induction fuel using Nat.strong_induction_on with
  | _ fuel ih =>
    intro fuel' text n h h'
    match fuel, fuel' with
    | 0, 0 => rfl
    | 0, f' + 1 =>
      have hnil : text = [] := List.length_eq_zero.mp (Nat.le_zero.mp h)
      subst hnil
      simp only [processBFuel]
      rw [Matcher.matchFirst_nil hpos]
    | f + 1, 0 =>
      have hnil : text = [] := List.length_eq_zero.mp (Nat.le_zero.mp h')
      subst hnil
      simp only [processBFuel]
      rw [Matcher.matchFirst_nil hpos]
    | f + 1, f' + 1 =>
      simp only [processBFuel]
      cases hm : anchor.matchFirst text with
      | none => rfl
      | some se =>
        obtain ⟨s, e⟩ := se
        obtain ⟨he, hle⟩ := Matcher.matchFirst_bounds hm
        simp only
        congr 1
        have hd : (text.drop e).length = text.length - e := List.length_drop e text
        exact ih f (by omega) f' (text.drop e) n (by omega) (by omega)

/-- Unfolding of `processB` when the adapter anchor is found at `(s, e)`. -/
theorem processB_anchor_some (viral : Matcher) (text : List Char) (n s e : Nat)
    (h : S2_matcher.matchFirst text = some (s, e)) :
    processB viral text n =
      processBPre A_matcher viral (text.take s) ((text.drop e).take 6)
        (processB viral (text.drop e) n) := by
  obtain ⟨he, hle⟩ := Matcher.matchFirst_bounds h
  have h40 := S2_pattern_length
  unfold processB
  cases hL : text.length with
  | zero => omega
  | succ k =>
    simp only [processBFuel]
    rw [h]
    simp only
    congr 1
    have hd : (text.drop e).length = text.length - e := List.length_drop e text
    exact processBFuel_congr S2_matcher A_matcher viral (by omega) k
      (text.drop e).length (text.drop e) n (by omega) (le_refl _)

/-- Ten junk symbols placed between the viral motif and the poly-A run of
the synthetic witness reads. -/
def tenB : List Char := ("GACTGACTGA").data

/-- A different ten-symbol junk segment, to tell the two emissions of the
two-anchor witness read apart. -/
def tenB2 : List Char := ("CCCTGACTGA").data

/-- Synthetic witness read: exact SIV motif, ten junk symbols, an exact
poly-A run, an exact adapter anchor. -/
def T1 : List Char := SIV_pattern.data ++ tenB ++ A_pattern.data ++ S2_pattern.data

/-- Synthetic witness read with two adapter-anchor occurrences, each
upstream region satisfying the viral-motif and poly-A conditions. -/
def T2 : List Char :=
  SIV_pattern.data ++ tenB2 ++ A_pattern.data ++ S2_pattern.data ++ T1

/-- Synthetic witness read for the barcode-gated variant: `T1` followed by
the exact barcode tag right after the anchor. -/
def T6 : List Char := T1 ++ ("AGCAAT").data

/-- Synthetic witness read whose poly-A run starts exactly at the viral
motif's end: the degenerate empty segment. -/
def T10 : List Char := SIV_pattern.data ++ A_pattern.data ++ S2_pattern.data

/-- Claim C3 counterexample: the configured pattern lengths are not
34/36/41 symbols — the viral patterns have 33 and 35 symbols and the adapter
anchor has 40. -/
theorem matcher_config_cex :
    ¬ (HIV_matcher.pattern.length = 34 ∧ SIV_matcher.pattern.length = 36 ∧
       S2_matcher.pattern.length = 41 ∧
       A_matcher.pattern = List.replicate 20 'A' ∧ A_matcher.maxMismatch = 3) := by
  decide

/-- Claim C3 (amended): the four approximate-matcher instances are configured
with a 33-symbol viral pattern (variant 1, HIV) with budget 5, a 35-symbol
viral pattern (variant 2, SIV) with budget 5, a 40-symbol adapter-anchor
pattern with budget 6, and a poly-A pattern of 20 consecutive A symbols with
budget 3. -/
theorem matcher_config :
    HIV_matcher.pattern.length = 33 ∧ HIV_matcher.maxMismatch = 5 ∧
    SIV_matcher.pattern.length = 35 ∧ SIV_matcher.maxMismatch = 5 ∧
    S2_matcher.pattern.length = 40 ∧ S2_matcher.maxMismatch = 6 ∧
    A_matcher.pattern = List.replicate 20 'A' ∧ A_matcher.maxMismatch = 3 := by
  decide

/-- Claim C5: every not-found condition is a normal control path — in the
embedding `process` is a total function — and in particular, when the adapter
anchor is absent (no occurrence at all), `process` emits zero records and
leaves the counter untouched. -/
theorem process_no_anchor_silent :
    (∀ (viral : Matcher) (text : List Char) (n : Nat),
      S2_matcher.matchFirst text = none → process viral text n = ([], n)) ∧
    (∀ (viral : Matcher) (text : List Char) (n : Nat),
      S2_matcher.matchAll text = [] → (process viral text n).1 = []) := by
  refine ⟨process_anchor_none, ?_⟩
  intro viral text n h
  rw [process_anchor_none viral text n (Matcher.matchFirst_of_matchAll_nil h)]

/-- Witness for C5 at a concrete read with zero anchor occurrences. -/
theorem process_no_anchor_silent_witness :
    S2_matcher.matchFirst (("ACGT").data) = none ∧
    S2_matcher.matchAll (("ACGT").data) = [] ∧
    process HIV_matcher (("ACGT").data) 1 = ([], 1) ∧
    (process HIV_matcher (("ACGT").data) 1).1 = [] :=
  ⟨by decide, by decide,
   process_no_anchor_silent.1 HIV_matcher (("ACGT").data) 1 (by decide),
   process_no_anchor_silent.2 HIV_matcher (("ACGT").data) 1 (by decide)⟩

/-- Claim C7: `reverse_complement` is total, length-preserving, and the
symbol at output position `i` is the complement of the symbol at input
position `len-1-i`, where the complement maps A to T, T to A, C to G, G to C,
and every other symbol to the fixed placeholder `'N'`. -/
theorem reverse_complement_spec :
    (∀ s : List Char, (reverse_complement s).length = s.length) ∧
    (∀ (s : List Char) (i : Nat) (h : i < s.length),
      (reverse_complement s).get
          ⟨i, by simpa only [reverse_complement, List.length_map,
            List.length_reverse] using h⟩ =
        complement_dict (s.get ⟨s.length - 1 - i, by omega⟩)) ∧
    complement_dict 'A' = 'T' ∧ complement_dict 'T' = 'A' ∧
    complement_dict 'C' = 'G' ∧ complement_dict 'G' = 'C' ∧
    (∀ c : Char, isACGT c = false → complement_dict c = 'N') := by
  refine ⟨?_, ?_, rfl, rfl, rfl, rfl, complement_dict_nonACGT⟩
  · intro s
    simp [reverse_complement]
  · intro s i h
    simp only [reverse_complement, List.get_eq_getElem, List.getElem_map,
      List.getElem_reverse, List.length_reverse]

/-- Witness for C7 at a concrete string containing a non-ACGT symbol. -/
theorem reverse_complement_spec_witness :
    (reverse_complement (("ACGTN").data)).length = (("ACGTN").data).length ∧
    0 < (("ACGTN").data).length ∧
    (reverse_complement (("ACGTN").data)).get ⟨0, by decide⟩ =
      complement_dict ((("ACGTN").data).get
        ⟨(("ACGTN").data).length - 1 - 0, by decide⟩) ∧
    isACGT 'N' = false ∧ complement_dict 'N' = 'N' :=
  ⟨reverse_complement_spec.1 (("ACGTN").data), by decide,
   reverse_complement_spec.2.1 (("ACGTN").data) 0 (by decide),
   by decide,
   reverse_complement_spec.2.2.2.2.2.2 'N' (by decide)⟩

/-- Claim C8: `reverse_complement` is an involution on strings drawn from
A, C, G, T; a non-ACGT symbol becomes the placeholder `'N'` at the mirrored
position after one application and at its own position after two. -/
theorem reverse_complement_involution :
    (∀ s : List Char, (∀ c ∈ s, isACGT c = true) →
      reverse_complement (reverse_complement s) = s) ∧
    (∀ (s : List Char) (i : Nat) (h : i < s.length),
      isACGT (s.get ⟨i, h⟩) = false →
      (reverse_complement s).get ⟨s.length - 1 - i, by
        simp only [reverse_complement, List.length_map, List.length_reverse]
        omega⟩ = 'N' ∧
      (reverse_complement (reverse_complement s)).get ⟨i, by
        simp only [reverse_complement, List.length_map, List.length_reverse]
        exact h⟩ = 'N') := by
  constructor
  · intro s hs
    simp only [reverse_complement, List.map_reverse, List.reverse_reverse,
      List.map_map]
    have hcong : ∀ c ∈ s, (complement_dict ∘ complement_dict) c = id c := by
      intro c hc
      simp only [Function.comp_apply, id_eq]
      exact complement_dict_involutive c (hs c hc)
    rw [List.map_congr_left hcong, List.map_id]
  · intro s i h hn
    constructor
    · simp only [reverse_complement, List.get_eq_getElem, List.getElem_map,
        List.getElem_reverse, List.length_reverse]
      have hidx : s.length - 1 - (s.length - 1 - i) = i := by omega
      simp only [hidx]
      exact complement_dict_nonACGT _ hn
    · simp only [reverse_complement, List.map_reverse, List.reverse_reverse,
        List.map_map, List.get_eq_getElem, List.getElem_map,
        Function.comp_apply]
      rw [List.get_eq_getElem] at hn
      rw [complement_dict_nonACGT _ hn]
      decide

/-- Witness for C8: a concrete ACGT-only string and a concrete string with a
non-ACGT symbol. -/
theorem reverse_complement_involution_witness :
    (∀ c ∈ (("ACGT").data), isACGT c = true) ∧
    reverse_complement (reverse_complement (("ACGT").data)) = ("ACGT").data ∧
    0 < (("AXGT").data).length ∧
    isACGT ((("AXGT").data).get ⟨1, by decide⟩) = false ∧
    (reverse_complement (("AXGT").data)).get
        ⟨(("AXGT").data).length - 1 - 1, by decide⟩ = 'N' ∧
    (reverse_complement (reverse_complement (("AXGT").data))).get
        ⟨1, by decide⟩ = 'N' :=
  ⟨by decide,
   reverse_complement_involution.1 (("ACGT").data) (by decide),
   by decide, by decide,
   (reverse_complement_involution.2 (("AXGT").data) 1 (by decide) (by decide)).1,
   (reverse_complement_involution.2 (("AXGT").data) 1 (by decide) (by decide)).2⟩

/-- Claim C9: when the `--virus` option is not supplied the HIV matcher
(pattern `CTTGTCTTCGTTGGGAGTGAATTAGCCCTTCCA`, budget 5) is used; among the
values allowed by `argparse`, the SIV matcher is selected exactly when
`--virus SIV` is passed explicitly. -/
theorem default_virus_HIV :
    selectViralMatcher none = HIV_matcher ∧
    selectViralMatcher (some HIV_name) = HIV_matcher ∧
    selectViralMatcher (some SIV_name) = SIV_matcher ∧
    HIV_matcher.pattern = HIV_pattern.data ∧ HIV_matcher.maxMismatch = 5 ∧
    (∀ v : Option String,
      (v = none ∨ v = some HIV_name ∨ v = some SIV_name) →
      (selectViralMatcher v = SIV_matcher ↔ v = some SIV_name)) := by
  refine ⟨by decide, by decide, by decide, rfl, rfl, ?_⟩
  intro v hv
  rcases hv with hv | hv | hv <;> subst hv <;> simp [selectViralMatcher] <;> decide

/-- Witness for C9 at the explicit `--virus SIV` value. -/
theorem default_virus_HIV_witness :
    (some SIV_name = none ∨ some SIV_name = some HIV_name ∨
      some SIV_name = some SIV_name) ∧
    (selectViralMatcher (some SIV_name) = SIV_matcher ↔
      some SIV_name = some SIV_name) :=
  ⟨Or.inr (Or.inr rfl),
   default_virus_HIV.2.2.2.2.2 (some SIV_name) (Or.inr (Or.inr rfl))⟩

/-- Claim C1: when the adapter anchor is found at `(s, e)` and the upstream
part `text[:s]` contains viral-motif occurrences, with `virEnd` the end
offset of the last (highest-offset) occurrence: if the poly-A matcher finds
an occurrence in `text[:s][virEnd:]` at relative start offset `a0`, then with
`aStart = virEnd + a0` the invocation emits exactly the substring
`text[:s][virEnd:aStart]` when `aStart > virEnd` and emits nothing for this
anchor when `aStart ≤ virEnd`; if no poly-A occurrence is found, nothing is
emitted for this anchor. -/
theorem process_upstream_emission (viral : Matcher) (text : List Char)
    (n s e vs virEnd : Nat)
    (h1 : S2_matcher.matchFirst text = some (s, e))
    (h2 : (viral.matchAll (text.take s)).getLast? = some (vs, virEnd)) :
    (∀ a0 ae, A_matcher.matchFirst ((text.take s).drop virEnd) = some (a0, ae) →
      (virEnd < virEnd + a0 →
        process viral text n =
          ((process viral (text.drop e) n).1 ++
            [((process viral (text.drop e) n).2,
              ((text.take s).drop virEnd).take (virEnd + a0 - virEnd))],
           (process viral (text.drop e) n).2 + 1)) ∧
      (virEnd + a0 ≤ virEnd →
        process viral text n = process viral (text.drop e) n)) ∧
    (A_matcher.matchFirst ((text.take s).drop virEnd) = none →
      process viral text n = process viral (text.drop e) n) := by
  constructor
  · intro a0 ae h3
    constructor
    · intro hgt
      rw [process_anchor_some viral text n s e h1,
        processPre_emit A_matcher viral (text.take s) _ vs virEnd a0 ae h2 h3
          (by omega)]
      rw [Nat.add_sub_cancel_left]
    · intro hle
      have ha0 : a0 = 0 := by omega
      subst ha0
      rw [process_anchor_some viral text n s e h1,
        processPre_degen A_matcher viral (text.take s) _ vs virEnd ae h2 h3]
  · intro h3
    rw [process_anchor_some viral text n s e h1,
      processPre_noA A_matcher viral (text.take s) _ vs virEnd h2 h3]

/-- Witness for C1 on the synthetic read `T1`. -/
theorem process_upstream_emission_witness :
    S2_matcher.matchFirst T1 = some (65, 105) ∧
    (SIV_matcher.matchAll (T1.take 65)).getLast? = some (0, 35) ∧
    A_matcher.matchFirst ((T1.take 65).drop 35) = some (5, 25) ∧
    35 < 35 + 5 ∧
    process SIV_matcher T1 1 =
      ((process SIV_matcher (T1.drop 105) 1).1 ++
        [((process SIV_matcher (T1.drop 105) 1).2,
          ((T1.take 65).drop 35).take (35 + 5 - 35))],
       (process SIV_matcher (T1.drop 105) 1).2 + 1) :=
  ⟨by decide, by decide, by decide, by decide,
   ((process_upstream_emission SIV_matcher T1 1 65 105 0 35 (by decide)
      (by decide)).1 5 25 (by decide)).1 (by decide)⟩

/-- Claim C10: given the anchor, a last viral occurrence ending at `virEnd`
and a poly-A occurrence at relative offset `a0`, the poly-A position
`virEnd + a0` never falls short of `virEnd` (offsets are non-negative), so a
negative-length segment is unreachable, and the non-emission branch for
`aStart ≤ virEnd` fires exactly when `a0 = 0`, i.e. when the poly-A run
immediately abuts the selected viral-motif end. -/
theorem polyA_offset_invariant (viral : Matcher) (text : List Char)
    (n s e vs virEnd a0 ae : Nat)
    (h1 : S2_matcher.matchFirst text = some (s, e))
    (h2 : (viral.matchAll (text.take s)).getLast? = some (vs, virEnd))
    (h3 : A_matcher.matchFirst ((text.take s).drop virEnd) = some (a0, ae)) :
    virEnd ≤ virEnd + a0 ∧
    (virEnd + a0 ≤ virEnd ↔ a0 = 0) ∧
    (process viral text n = process viral (text.drop e) n ↔ a0 = 0) := by
  refine ⟨by omega, by omega, ?_, ?_⟩
  · intro heq
    by_contra ha0
    have hpos : 0 < a0 := Nat.pos_of_ne_zero ha0
    rw [process_anchor_some viral text n s e h1,
      processPre_emit A_matcher viral (text.take s) _ vs virEnd a0 ae h2 h3
        hpos] at heq
    have hsnd := congrArg Prod.snd heq
    simp only at hsnd
    omega
  · intro ha0
    subst ha0
    rw [process_anchor_some viral text n s e h1,
      processPre_degen A_matcher viral (text.take s) _ vs virEnd ae h2 h3]

/-- Witness for C10 on the synthetic read `T10`, whose poly-A run starts
exactly at the viral motif's end. -/
theorem polyA_offset_invariant_witness :
    S2_matcher.matchFirst T10 = some (55, 95) ∧
    (SIV_matcher.matchAll (T10.take 55)).getLast? = some (0, 35) ∧
    A_matcher.matchFirst ((T10.take 55).drop 35) = some (0, 20) ∧
    (process SIV_matcher T10 1 = process SIV_matcher (T10.drop 95) 1 ↔ 0 = 0) :=
  ⟨by decide, by decide, by decide,
   (polyA_offset_invariant SIV_matcher T10 1 55 95 0 35 0 20 (by decide)
      (by decide) (by decide)).2.2⟩

/-- Claim C2: the records of the current anchor's suffix all appear in the
output before the record (at most one) contributed by the current anchor's
upstream part; and for a read with two anchor occurrences whose upstream
parts each satisfy the viral-motif and poly-A conditions, exactly two
records are emitted, the one from the second (more downstream) anchor
first. -/
theorem process_suffix_first_order :
    (∀ (viral : Matcher) (text : List Char) (n s e : Nat),
      S2_matcher.matchFirst text = some (s, e) →
      ∃ extra : List (Nat × List Char), extra.length ≤ 1 ∧
        (process viral text n).1 = (process viral (text.drop e) n).1 ++ extra) ∧
    (∀ (viral : Matcher) (text : List Char)
      (n s e vs w1 a1 b1 s2 e2 vs2 w2 a2 b2 : Nat),
      S2_matcher.matchFirst text = some (s, e) →
      (viral.matchAll (text.take s)).getLast? = some (vs, w1) →
      A_matcher.matchFirst ((text.take s).drop w1) = some (a1, b1) →
      0 < a1 →
      S2_matcher.matchFirst (text.drop e) = some (s2, e2) →
      (viral.matchAll ((text.drop e).take s2)).getLast? = some (vs2, w2) →
      A_matcher.matchFirst (((text.drop e).take s2).drop w2) = some (a2, b2) →
      0 < a2 →
      S2_matcher.matchFirst ((text.drop e).drop e2) = none →
      process viral text n =
        ([(n, (((text.drop e).take s2).drop w2).take a2),
          (n + 1, ((text.take s).drop w1).take a1)], n + 2)) := by
  constructor
  · intro viral text n s e h1
    rw [process_anchor_some viral text n s e h1]
    cases hv : (viral.matchAll (text.take s)).getLast? with
    | none =>
      refine ⟨[], by simp, ?_⟩
      rw [processPre_noVir A_matcher viral (text.take s) _ hv]
      simp
    | some p =>
      obtain ⟨vs, vp⟩ := p
      cases hA : A_matcher.matchFirst ((text.take s).drop vp) with
      | none =>
        refine ⟨[], by simp, ?_⟩
        rw [processPre_noA A_matcher viral (text.take s) _ vs vp hv hA]
        simp
      | some q =>
        obtain ⟨a0, ae⟩ := q
        rcases Nat.eq_zero_or_pos a0 with hz | hpos
        · subst hz
          refine ⟨[], by simp, ?_⟩
          rw [processPre_degen A_matcher viral (text.take s) _ vs vp ae hv hA]
          simp
        · refine ⟨[((process viral (text.drop e) n).2,
            ((text.take s).drop vp).take a0)], by simp, ?_⟩
          rw [processPre_emit A_matcher viral (text.take s) _ vs vp a0 ae hv hA
            hpos]
  · intro viral text n s e vs w1 a1 b1 s2 e2 vs2 w2 a2 b2 h1 h2 h3 ha1 h4 h5 h6
      ha2 h7
    have hs2 : process viral ((text.drop e).drop e2) n = ([], n) :=
      process_anchor_none viral _ n h7
    have hsuf : process viral (text.drop e) n =
        ([(n, (((text.drop e).take s2).drop w2).take a2)], n + 1) := by
      rw [process_anchor_some viral (text.drop e) n s2 e2 h4,
        processPre_emit A_matcher viral ((text.drop e).take s2) _ vs2 w2 a2 b2
          h5 h6 ha2, hs2]
      simp
    rw [process_anchor_some viral text n s e h1,
      processPre_emit A_matcher viral (text.take s) _ vs w1 a1 b1 h2 h3 ha1,
      hsuf]
    simp

/-- Witness for C2 on the synthetic two-anchor read `T2`. -/
theorem process_suffix_first_order_witness :
    (S2_matcher.matchFirst T2 = some (65, 105) ∧
      ∃ extra : List (Nat × List Char), extra.length ≤ 1 ∧
        (process SIV_matcher T2 1).1 =
          (process SIV_matcher (T2.drop 105) 1).1 ++ extra) ∧
    ((SIV_matcher.matchAll (T2.take 65)).getLast? = some (0, 35) ∧
      A_matcher.matchFirst ((T2.take 65).drop 35) = some (5, 25) ∧
      S2_matcher.matchFirst (T2.drop 105) = some (65, 105) ∧
      (SIV_matcher.matchAll ((T2.drop 105).take 65)).getLast? = some (0, 35) ∧
      A_matcher.matchFirst (((T2.drop 105).take 65).drop 35) = some (5, 25) ∧
      S2_matcher.matchFirst ((T2.drop 105).drop 105) = none ∧
      process SIV_matcher T2 1 =
        ([(1, (((T2.drop 105).take 65).drop 35).take 5),
          (2, ((T2.take 65).drop 35).take 5)], 3)) :=
  ⟨⟨by decide, process_suffix_first_order.1 SIV_matcher T2 1 65 105 (by decide)⟩,
   ⟨by decide, by decide, by decide, by decide, by decide, by decide,
    process_suffix_first_order.2 SIV_matcher T2 1 65 105 0 35 5 25 65 105 0 35
      5 25 (by decide) (by decide) (by decide) (by decide) (by decide)
      (by decide) (by decide) (by decide) (by decide)⟩⟩

/-- Claim C4: over a whole run (all reads of all input files, forward and
reverse-complement), the record counter starts at 1, each emitted record's
identifier is the pre-increment counter value, the counter advances by
exactly one per record, and the identifiers are therefore the consecutive
integers 1, 2, ... — strictly increasing and globally unique. -/
theorem record_counter_ids (viral : Matcher) (files : List (List (List Char))) :
    (runFiles viral files).1.map Prod.fst =
      List.range' 1 (runFiles viral files).1.length ∧
    (runFiles viral files).2 = 1 + (runFiles viral files).1.length ∧
    ((runFiles viral files).1.map Prod.fst).Pairwise (· < ·) := by
  obtain ⟨hc, hm⟩ := runReads_counter viral files.flatten 1
  unfold runFiles
  refine ⟨hm, hc, ?_⟩
  rw [hm]
  exact List.pairwise_lt_range' 1 _

/-- Claim C6 (barcode-gated variant, modelled from the spec): a record is
emitted for an anchor only if the 6 symbols of the original text immediately
following the anchor's end offset equal the fixed barcode exactly, in which
case the header is the identifier followed by `-` and the tag (e.g.
`>1-AGCAAT`); if those symbols differ, emission is suppressed while the
recursion into the suffix still occurs. -/
theorem barcode_gated_emission (viral : Matcher) (text : List Char)
    (n s e vs virEnd a0 ae : Nat)
    (h1 : S2_matcher.matchFirst text = some (s, e))
    (h2 : (viral.matchAll (text.take s)).getLast? = some (vs, virEnd))
    (h3 : A_matcher.matchFirst ((text.take s).drop virEnd) = some (a0, ae))
    (ha : 0 < a0) :
    ((text.drop e).take 6 = BARCODE →
      processB viral text n =
        ((processB viral (text.drop e) n).1 ++
          [(mkHeaderB (processB viral (text.drop e) n).2 BARCODE,
            ((text.take s).drop virEnd).take a0)],
         (processB viral (text.drop e) n).2 + 1)) ∧
    ((text.drop e).take 6 ≠ BARCODE →
      processB viral text n = processB viral (text.drop e) n) ∧
    mkHeaderB 1 BARCODE = ">1-AGCAAT" := by
  refine ⟨?_, ?_, by decide⟩
  · intro hb
    rw [processB_anchor_some viral text n s e h1]
    simp only [processBPre, h2, h3]
    rw [if_pos ⟨by omega, hb⟩]
    rw [Nat.add_sub_cancel]
  · intro hb
    rw [processB_anchor_some viral text n s e h1]
    simp only [processBPre, h2, h3]
    rw [if_neg (fun hcon => hb hcon.2)]

/-- Witness for C6: the barcode-bearing read `T6` emits with the tagged
header, while `T1` (no barcode after the anchor) is suppressed. -/
theorem barcode_gated_emission_witness :
    (T6.drop 105).take 6 = BARCODE ∧
    processB SIV_matcher T6 1 =
      ((processB SIV_matcher (T6.drop 105) 1).1 ++
        [(mkHeaderB (processB SIV_matcher (T6.drop 105) 1).2 BARCODE,
          ((T6.take 65).drop 35).take 5)],
       (processB SIV_matcher (T6.drop 105) 1).2 + 1) ∧
    (T1.drop 105).take 6 ≠ BARCODE ∧
    processB SIV_matcher T1 1 = processB SIV_matcher (T1.drop 105) 1 :=
  ⟨by decide,
   (barcode_gated_emission SIV_matcher T6 1 65 105 0 35 5 25 (by decide)
      (by decide) (by decide) (by decide)).1 (by decide),
   by decide,
   (barcode_gated_emission SIV_matcher T1 1 65 105 0 35 5 25 (by decide)
      (by decide) (by decide) (by decide)).2.1 (by decide)⟩

end TerminalMapping
